import Mathlib

/-!
Verification of the `requests` HTTP client library core against its
natural-language specification.

The repository under verification ships the module skeletons of
`requests.models`, `requests.cookies` and `requests.utils` (class and
function declarations with docstrings); the function bodies themselves are
not present in the source tree.  Every operation below is therefore a
shallow embedding modelled from the specification (and the in-tree
docstrings), as noted on each definition.  Bytes are `Nat` values below
256, byte strings are `List Nat`, header maps are association lists with
case-insensitive keys mirroring `CaseInsensitiveDict`.
-/

/-! ## Basic character and byte helpers -/

/-- ASCII decimal digit test for a byte. -/
def isDigitB (b : Nat) : Bool := 48 ≤ b && b ≤ 57

/-- ASCII letter test for a byte. -/
def isAlphaB (b : Nat) : Bool := (65 ≤ b && b ≤ 90) || (97 ≤ b && b ≤ 122)

/-- ASCII alphanumeric test for a byte (`str.isalnum` restricted to ASCII). -/
def isAlnumB (b : Nat) : Bool := isAlphaB b || isDigitB b

/-- ASCII hexadecimal digit test for a byte. -/
def isHexB (b : Nat) : Bool :=
  isDigitB b || (65 ≤ b && b ≤ 70) || (97 ≤ b && b ≤ 102)

/-- Numeric value of one ASCII hexadecimal digit byte. -/
def hexDigitVal (b : Nat) : Nat :=
  if isDigitB b then b - 48
  else if 65 ≤ b && b ≤ 70 then b - 55
  else if 97 ≤ b && b ≤ 102 then b - 87
  else 0

/-- Byte value of a two-digit hexadecimal escape. -/
def hexValB (c1 c2 : Nat) : Nat := 16 * hexDigitVal c1 + hexDigitVal c2

/-- Upper-case hexadecimal digit byte for a value below 16. -/
def hexDigitUpper (n : Nat) : Nat := if n < 10 then n + 48 else n + 55

/-- High hexadecimal digit byte of a byte value. -/
def hexHi (b : Nat) : Nat := hexDigitUpper (b / 16)

/-- Low hexadecimal digit byte of a byte value. -/
def hexLo (b : Nat) : Nat := hexDigitUpper (b % 16)

/-- ASCII bytes of a string, for writing concrete byte-string inputs. -/
def strBytes (s : String) : List Nat := s.toList.map Char.toNat

/-- Lower-case a string character by character (ASCII case folding),
written so the kernel can evaluate it. -/
def lowerStr (s : String) : String := String.mk (s.toList.map Char.toLower)

/-! ## Header maps

Modelled from the spec (§3 "Header collection") and
`requests.structures.CaseInsensitiveDict`, whose module is not in the
source tree: an ordered association list with case-insensitive lookup. -/

/-- Header map: ordered key/value pairs, case preserved, lookup case-insensitive. -/
abbrev Headers : Type := List (String × String)

/-- Case-insensitive header lookup (`CaseInsensitiveDict.__getitem__`). -/
def hget (hs : Headers) (k : String) : Option String :=
  (List.find? (fun p => lowerStr p.1 == lowerStr k) hs).map (·.2)

/-- Case-insensitive header insertion, last write wins (`CaseInsensitiveDict.__setitem__`). -/
def hset (hs : Headers) (k v : String) : Headers :=
  List.filter (fun p => lowerStr p.1 != lowerStr k) hs ++ [(k, v)]

/-- Case-insensitive header removal (`CaseInsensitiveDict.__delitem__`). -/
def hremove (hs : Headers) (k : String) : Headers :=
  List.filter (fun p => lowerStr p.1 != lowerStr k) hs

/-! ## Error taxonomy (spec §7) -/

/-- Error kinds of the library relevant to the claims (spec §7 taxonomy). -/
inductive RequestsError : Type
  | streamConsumed
  | unrewindableBody
  | cookieConflict
  | keyError
  | invalidURL
  | jsonDecode (msg : String)
deriving DecidableEq, Repr

/-! ## Response model (spec §3 "Response", §4.2) -/

/-- Modelled from the spec: `requests.models.Response` (its method bodies are
absent from `models.py`).  The raw transport stream is a list of byte
chunks still unread; `rawReads` counts chunk reads performed on the
underlying stream; `_content` is the cached materialized buffer
(`None`/absent until first materialization) and `_content_consumed` the
consumption flag, both fields as initialized by `Response.__init__`. -/
structure Response : Type where
  status_code : Nat
  headers : Headers
  raw : List (List Nat)
  rawReads : Nat
  encoding : Option String
  _content : Option (List Nat)
  _content_consumed : Bool
deriving DecidableEq, Repr

/-- Modelled from the spec (§4.2 `content`, body of `Response.content` absent):
materialize-once — if a cached buffer exists return it unchanged, otherwise
read the whole stream in chunks, concatenate, cache, and mark the stream
consumed.  Returns the buffer and the updated response state. -/
def Response.content (r : Response) : List Nat × Response :=
  match r._content with
  | some c => (c, r)
  | none =>
    let whole := r.raw.flatten
    (whole, { r with
      _content := some whole
      _content_consumed := true
      raw := []
      rawReads := r.rawReads + r.raw.length })

/-- Slice a byte string into pieces of `n` bytes (`requests.utils.iter_slices`,
body absent; a slice length of zero yields the whole string in one piece,
matching the falsy-slice-length behaviour). -/
def iter_slices_aux : Nat → Nat → List Nat → List (List Nat)
  | 0, _, _ => []
  | _, _, [] => []
  | Nat.succ fuel, n, l =>
    if n = 0 then [l] else l.take n :: iter_slices_aux fuel n (l.drop n)

/-- Slice a byte string into pieces of `n` bytes. -/
def iter_slices (n : Nat) (l : List Nat) : List (List Nat) :=
  iter_slices_aux l.length n l

/-- Modelled from the spec (§4.2 `iter_content`, body of
`Response.iter_content` absent): a lazy, not restartable chunk sequence;
if the stream was already consumed it raises the stream-already-consumed
error, except that with no chunk size and a cached buffer it may replay
the cached buffer in one shot.  `chunkSize = none` streams chunks as they
arrive; `chunkSize = some n` re-slices into `n`-byte pieces. -/
def Response.iter_content (r : Response) (chunkSize : Option Nat) :
    Except RequestsError (List (List Nat) × Response) :=
  if r._content_consumed then
    match r._content, chunkSize with
    | some c, none => .ok ([c], r)
    | _, _ => .error .streamConsumed
  else
    let chunks := match chunkSize with
      | none => r.raw
      | some n => iter_slices n r.raw.flatten
    .ok (chunks, { r with
      raw := []
      rawReads := r.rawReads + r.raw.length
      _content_consumed := true })

/-! ## Redirect classification (C8) -/

/-- Redirect status codes (`requests.models.REDIRECT_STATI`; the tuple is in
`models.py`, the named codes resolve to 301, 302, 303, 307, 308 in
`requests.status_codes`, which is not in the source tree). -/
def REDIRECT_STATI : List Nat := [301, 302, 303, 307, 308]

/-- Modelled from the spec (§4.2, body of `Response.is_redirect` absent):
true iff a `Location` header is present and the status code is a redirect
status. -/
def Response.is_redirect (r : Response) : Bool :=
  (hget r.headers "location").isSome && REDIRECT_STATI.contains r.status_code

/-- Modelled from the spec (§4.2, body of `Response.is_permanent_redirect`
absent): true iff a `Location` header is present and the status code is a
permanent redirect (301 moved permanently or 308 permanent redirect). -/
def Response.is_permanent_redirect (r : Response) : Bool :=
  (hget r.headers "location").isSome &&
    (r.status_code == 301 || r.status_code == 308)

/-! ## Cookie jar (spec §3 "Cookie"/"CookieStore invariant", §4.3) -/

/-- Modelled from the spec (§3 "Cookie"): the cookie record as used by the
jar, identity being the (name, domain, path) triple. -/
structure SimpleCookie : Type where
  name : String
  value : String
  domain : String
  path : String
deriving DecidableEq, Repr

/-- Whether a cookie matches a lookup by name and optional domain and path
qualifiers (unspecified qualifiers match everything). -/
def cookieMatches (c : SimpleCookie) (name : String) (domain path : Option String) : Bool :=
  c.name == name &&
    (match domain with | none => true | some d => c.domain == d) &&
    (match path with | none => true | some p => c.path == p)

namespace RequestsCookieJar

/-- Accumulator loop of `_find_no_duplicates`: scan the jar, remember the
first matching value, fail on a second match. -/
def findNoDupAux (name : String) (domain path : Option String) :
    List SimpleCookie → Option String → Except RequestsError String
  | [], acc =>
    match acc with
    | some v => .ok v
    | none => .error .keyError
  | c :: rest, acc =>
    if cookieMatches c name domain path then
      match acc with
      | some _ => .error .cookieConflict
      | none => findNoDupAux name domain path rest (some c.value)
    else
      findNoDupAux name domain path rest acc

/-- Modelled from the spec (§4.3, body of
`RequestsCookieJar._find_no_duplicates` absent; its docstring is in
`cookies.py`): return the value of the unique cookie matching name and the
optional domain and path, raise the cookie-conflict error when more than
one matches, and a key error when none does. -/
def _find_no_duplicates (jar : List SimpleCookie) (name : String)
    (domain path : Option String) : Except RequestsError String :=
  findNoDupAux name domain path jar none

/-- Modelled from the spec (§4.3 `get`, body of `RequestsCookieJar.get`
absent): dict-like get with optional domain and path qualifiers; an absent
name yields the supplied default; a conflict propagates. -/
def get (jar : List SimpleCookie) (name : String) (default : Option String)
    (domain path : Option String) : Except RequestsError (Option String) :=
  match _find_no_duplicates jar name domain path with
  | .ok v => .ok (some v)
  | .error .keyError => .ok default
  | .error e => .error e

/-- Membership test of `RequestsCookieJar.__contains__` (this body is
present in `cookies.py`): the strict lookup is attempted and a
cookie-conflict error is caught and turned into `true`; a key error means
absence.  The underlying strict lookup `_find_no_duplicates` is modelled
from the spec. -/
def contains (jar : List SimpleCookie) (name : String) : Bool :=
  match _find_no_duplicates jar name none none with
  | .ok _ => true
  | .error .cookieConflict => true
  | .error _ => false

end RequestsCookieJar

/-! ## PreparedRequest, cookies header, redirects (spec §3, §4.1, §4.4) -/

/-- A body stream: remaining reads start at `pos` into `data`; `seekable`
records whether the underlying file object supports `seek`. -/
structure BodyStream : Type where
  data : List Nat
  pos : Nat
  seekable : Bool
deriving DecidableEq, Repr

/-- Recorded body start position of a `PreparedRequest` (`_body_position`
in `models.py`): never recorded, recorded offset (a successful `tell`),
or the failure marker left when `tell` raised on a non-seekable stream. -/
inductive BodyPosition : Type
  | unset
  | recorded (pos : Nat)
  | failed
deriving DecidableEq, Repr

/-- Modelled from the spec (§3 "PreparedRequest"): the wire-exact request
with the fields the claims concern; `_body_position` is initialized by
`PreparedRequest.__init__` (present in `models.py`) and recorded during
body preparation. -/
structure PreparedRequest : Type where
  method : String
  url : String
  headers : Headers
  body : Option BodyStream
  _body_position : BodyPosition
deriving DecidableEq, Repr

/-- Modelled from the spec (§3: "a recorded body-start-position for
rewind", recording step of `PreparedRequest.prepare_body`, body absent):
a seekable stream records its current offset, a non-seekable one records
the failure marker. -/
def record_body_position (b : BodyStream) : BodyPosition :=
  if b.seekable then .recorded b.pos else .failed

/-- Modelled from the spec (§4.4 body rewind, body of
`requests.utils.rewind_body` absent; its docstring is in `utils.py`):
reposition a seekable stream to its recorded start offset; fail with the
unrewindable-body error when no usable offset was recorded or the stream
cannot seek. -/
def rewind_body (p : PreparedRequest) : Except RequestsError PreparedRequest :=
  match p.body, p._body_position with
  | some b, .recorded pos =>
    if b.seekable then .ok { p with body := some { b with pos := pos } }
    else .error .unrewindableBody
  | _, _ => .error .unrewindableBody

/-- Modelled from the spec (§4.4 method-change table; the redirect resolver
lives in `requests.sessions`, which is not in the source tree): 303 always
becomes GET; 301 and 302 become GET for a POST; other codes keep the
method. -/
def rebuild_method (method : String) (status : Nat) : String :=
  if status == 303 then "GET"
  else if (status == 301 || status == 302) && method == "POST" then "GET"
  else method

/-- Modelled from the spec (§4.4, redirect resolver not in the source
tree): one redirect hop applied to the previous prepared request.  When the
method changes to GET the body is dropped along with the `Content-Length`
header and the recorded body position; when a tracked stream body is kept
it is rewound to its recorded start offset, failing with the
unrewindable-body error if that is impossible. -/
def redirect_hop (p : PreparedRequest) (status : Nat) :
    Except RequestsError PreparedRequest :=
  let m := rebuild_method p.method status
  let stripped : PreparedRequest :=
    if m == "GET" && p.method != "GET" then
      { p with
        method := m
        body := none
        _body_position := .unset
        headers := hremove p.headers "Content-Length" }
    else { p with method := m }
  match stripped._body_position with
  | .unset => .ok stripped
  | _ => rewind_body stripped

/-- Render the cookies of a jar as a `Cookie` header value. -/
def render_cookie_header (jar : List SimpleCookie) : String :=
  String.intercalate "; " (jar.map (fun c => c.name ++ "=" ++ c.value))

/-- Modelled from the spec (§4.1 stage 7 and the `prepare_cookies`
docstring in `models.py`; bodies of `get_cookie_header` and the cookielib
header assembly absent): cookielib refuses to regenerate a `Cookie` header
that is already present on the request, and produces none when no cookie
data applies.  Domain and path scoping of the jar against the request URL
is orthogonal to the claims and omitted: every jar cookie is rendered. -/
def get_cookie_header (jar : List SimpleCookie) (req : PreparedRequest) : Option String :=
  if (hget req.headers "Cookie").isSome then none
  else if jar.isEmpty then none
  else some (render_cookie_header jar)

/-- Modelled from the spec (§4.1 stage 7, body of
`PreparedRequest.prepare_cookies` absent; its docstring is in
`models.py`): assemble the `Cookie` header from the jar and set it, doing
nothing when no header is produced — in particular when one already
exists. -/
def PreparedRequest.prepare_cookies (req : PreparedRequest)
    (jar : List SimpleCookie) : PreparedRequest :=
  match get_cookie_header jar req with
  | some h => { req with headers := hset req.headers "Cookie" h }
  | none => req

/-! ## Content-type parsing and text decoding (spec §4.2 `text`) -/

/-- Split a list at every occurrence of a separator; always returns at
least one (possibly empty) segment, like `str.split`. -/
def splitSep {α : Type} [DecidableEq α] (sep : α) : List α → List (List α)
  | [] => [[]]
  | c :: cs =>
    match splitSep sep cs with
    | [] => [[]]
    | h :: t => if c = sep then [] :: h :: t else (c :: h) :: t

/-- Strip the characters `str.strip` would strip in the content-type
parser: spaces and single and double quotes, from both ends. -/
def stripQuoteSpace (s : List Char) : List Char :=
  let isQ : Char → Bool := fun c =>
    c = ' ' || c = Char.ofNat 39 || c = Char.ofNat 34
  ((s.dropWhile isQ).reverse.dropWhile isQ).reverse

/-- Strip spaces from both ends. -/
def trimSpaces (s : List Char) : List Char :=
  ((s.dropWhile (· = ' ')).reverse.dropWhile (· = ' ')).reverse

/-- Lower-case every character. -/
def lowerChars (s : List Char) : List Char := s.map Char.toLower

/-- Find the `charset` parameter among the `;`-separated parameter tokens
of a content-type header: key before the first `=` and value after it,
both stripped of spaces and quotes, keys compared lower-cased
(`requests.utils._parse_content_type_header`, body absent). -/
def paramCharset : List (List Char) → Option String
  | [] => none
  | tok :: rest =>
    match tok.span (fun c => c ≠ '=') with
    | (key, _eq :: value) =>
      if lowerChars (stripQuoteSpace key) = "charset".toList then
        some (String.mk (stripQuoteSpace value))
      else paramCharset rest
    | (_, []) => paramCharset rest

/-- The charset explicitly declared by a content-type header value, if any. -/
def charset_of_content_type (ct : String) : Option String :=
  paramCharset ((splitSep ';' ct.toList).drop 1)

/-- The media type of a content-type header value, lower-cased and trimmed. -/
def media_type_of (ct : String) : List Char :=
  lowerChars (trimSpaces ((splitSep ';' ct.toList).headD []))

/-- Whether a content-type header value names a `text/*` media type. -/
def content_type_is_text (ct : String) : Bool :=
  (media_type_of ct).take 4 = "text".toList

/-- The charset explicitly declared by the `Content-Type` header of a
header map, if any. -/
def declared_charset (headers : Headers) : Option String :=
  match hget headers "content-type" with
  | none => none
  | some ct => charset_of_content_type ct

/-- Modelled from the spec (§4.2 `text`, body of
`requests.utils.get_encoding_from_headers` absent): the charset declared
in the `Content-Type` header when present, else the HTTP default
`ISO-8859-1` for `text/*` media types, else nothing. -/
def get_encoding_from_headers (headers : Headers) : Option String :=
  match hget headers "content-type" with
  | none => none
  | some ct =>
    match charset_of_content_type ct with
    | some cs => some cs
    | none => if content_type_is_text ct then some "ISO-8859-1" else none

/-- Unicode replacement character, used for undecodable input. -/
def replChar : Char := Char.ofNat 0xFFFD

/-- Decode bytes as ISO-8859-1: every byte is the code point itself. -/
def latin1Decode (bs : List Nat) : List Char := bs.map Char.ofNat

/-- Decode bytes as UTF-8 with replacement of invalid sequences
(surrogate code points are replaced). -/
def utf8DecodeAux : Nat → List Nat → List Char
  | 0, _ => []
  | _, [] => []
  | Nat.succ fuel, b :: rest =>
    if b < 128 then Char.ofNat b :: utf8DecodeAux fuel rest
    else if 194 ≤ b && b ≤ 223 then
      match rest with
      | b2 :: rest2 =>
        if 128 ≤ b2 && b2 ≤ 191 then
          Char.ofNat ((b - 192) * 64 + (b2 - 128)) :: utf8DecodeAux fuel rest2
        else replChar :: utf8DecodeAux fuel rest
      | [] => [replChar]
    else if 224 ≤ b && b ≤ 239 then
      match rest with
      | b2 :: b3 :: rest3 =>
        if 128 ≤ b2 && b2 ≤ 191 && 128 ≤ b3 && b3 ≤ 191 then
          let v := (b - 224) * 4096 + (b2 - 128) * 64 + (b3 - 128)
          (if 55296 ≤ v && v ≤ 57343 then replChar else Char.ofNat v) ::
            utf8DecodeAux fuel rest3
        else replChar :: utf8DecodeAux fuel rest
      | _ => [replChar]
    else if 240 ≤ b && b ≤ 244 then
      match rest with
      | b2 :: b3 :: b4 :: rest4 =>
        if 128 ≤ b2 && b2 ≤ 191 && 128 ≤ b3 && b3 ≤ 191 && 128 ≤ b4 && b4 ≤ 191 then
          let v := (b - 240) * 262144 + (b2 - 128) * 4096 + (b3 - 128) * 64 + (b4 - 128)
          (if v < 1114112 then Char.ofNat v else replChar) :: utf8DecodeAux fuel rest4
        else replChar :: utf8DecodeAux fuel rest
      | _ => [replChar]
    else replChar :: utf8DecodeAux fuel rest

/-- Decode bytes as UTF-8 with replacement. -/
def utf8Decode (bs : List Nat) : List Char := utf8DecodeAux bs.length bs

/-- Decode bytes as UTF-16 (little-endian when the flag is set), basic
multilingual plane only: surrogate halves decode to the replacement
character, which suffices for the properties proved below. -/
def utf16DecodeAux : Nat → Bool → List Nat → List Char
  | 0, _, _ => []
  | _, _, [] => []
  | Nat.succ _, _, [_] => [replChar]
  | Nat.succ fuel, le, b1 :: b2 :: rest =>
    let v := if le then b1 + 256 * b2 else 256 * b1 + b2
    (if 55296 ≤ v && v ≤ 57343 then replChar else Char.ofNat v) ::
      utf16DecodeAux fuel le rest

/-- Decode bytes as UTF-32 (little-endian when the flag is set). -/
def utf32DecodeAux : Nat → Bool → List Nat → List Char
  | 0, _, _ => []
  | _, _, [] => []
  | Nat.succ fuel, le, b1 :: b2 :: b3 :: b4 :: rest =>
    let v := if le then b1 + 256 * b2 + 65536 * b3 + 16777216 * b4
             else b4 + 256 * b3 + 65536 * b2 + 16777216 * b1
    (if v < 1114112 && !(55296 ≤ v && v ≤ 57343) then Char.ofNat v else replChar) ::
      utf32DecodeAux fuel le rest
  | Nat.succ _, _, _ => [replChar]

/-- Decode a byte string under a named codec, with replacement of invalid
input; unknown codec names fall back to UTF-8 with replacement, mirroring
the replace-on-failure decoding of `text`. -/
def decodeBytes (enc : String) (bs : List Nat) : String :=
  let e := lowerStr enc
  if e = "iso-8859-1" || e = "latin-1" || e = "latin1" then
    String.mk (latin1Decode bs)
  else if e = "utf-8-sig" then
    String.mk (utf8Decode (if bs.take 3 = [239, 187, 191] then bs.drop 3 else bs))
  else if e = "utf-16" then
    if bs.take 2 = [254, 255] then String.mk (utf16DecodeAux bs.length false (bs.drop 2))
    else if bs.take 2 = [255, 254] then String.mk (utf16DecodeAux bs.length true (bs.drop 2))
    else String.mk (utf16DecodeAux bs.length true bs)
  else if e = "utf-16-le" then String.mk (utf16DecodeAux bs.length true bs)
  else if e = "utf-16-be" then String.mk (utf16DecodeAux bs.length false bs)
  else if e = "utf-32" then
    if bs.take 4 = [0, 0, 254, 255] then String.mk (utf32DecodeAux bs.length false (bs.drop 4))
    else if bs.take 4 = [255, 254, 0, 0] then String.mk (utf32DecodeAux bs.length true (bs.drop 4))
    else String.mk (utf32DecodeAux bs.length true bs)
  else if e = "utf-32-le" then String.mk (utf32DecodeAux bs.length true bs)
  else if e = "utf-32-be" then String.mk (utf32DecodeAux bs.length false bs)
  else String.mk (utf8Decode bs)

/-- Modelled from the spec (§4.2 `apparent_encoding`, body absent): a
stand-in for the statistical detector, a function of the content bytes
alone.  The only property the claims use is that `text` never consults
it. -/
def Response.apparent_encoding (r : Response) : String :=
  if ((r._content.getD (r.raw.flatten)).all (· < 128)) then "ascii" else "utf-8"

/-- The encoding `text` decodes with: the explicit `encoding` attribute
when set, else whatever the headers yield.  Statistical detection is
never consulted. -/
def Response.textEncoding (r : Response) : Option String :=
  match r.encoding with
  | some e => some e
  | none => get_encoding_from_headers r.headers

/-- Modelled from the spec (§4.2 `text`, body of `Response.text` absent):
empty content decodes to the empty string with no guessing; otherwise the
content is decoded with the explicit encoding, else the header-derived
encoding.  The spec fixes no default for a non-empty body with neither,
beyond never invoking `apparent_encoding`; UTF-8 is used as the fixed
fallback (§9: fall back to a fixed default). -/
def Response.text (r : Response) : String :=
  let c := (r.content).1
  if c.isEmpty then ""
  else decodeBytes ((r.textEncoding).getD "utf-8") c

/-! ## JSON decoding (spec §4.2 `json`) -/

/-- Every other element of a list, starting with the first (Python `l[::2]`). -/
def everyOther : List Nat → List Nat
  | [] => []
  | [a] => [a]
  | a :: _ :: rest => a :: everyOther rest

/-- Modelled from the spec (§4.2 `json`, body of
`requests.utils.guess_json_utf` absent): detect UTF-8/16/32 with or
without BOM from the first four bytes by the null-byte pattern heuristic;
an unrecognized pattern yields nothing. -/
def guess_json_utf (data : List Nat) : Option String :=
  let sample := data.take 4
  if sample = [255, 254, 0, 0] || sample = [0, 0, 254, 255] then some "utf-32"
  else if sample.take 3 = [239, 187, 191] then some "utf-8-sig"
  else if sample.take 2 = [255, 254] || sample.take 2 = [254, 255] then some "utf-16"
  else
    let nullcount := (sample.filter (· = 0)).length
    if nullcount = 0 then some "utf-8"
    else if nullcount = 2 then
      if everyOther sample = [0, 0] then some "utf-16-be"
      else if everyOther (sample.drop 1) = [0, 0] then some "utf-16-le"
      else none
    else if nullcount = 3 then
      if sample.take 3 = [0, 0, 0] then some "utf-32-be"
      else if sample.drop 1 = [0, 0, 0] then some "utf-32-le"
      else none
    else none

/-- Double-quote character. -/
def quoteCh : Char := Char.ofNat 34

/-- Backslash character. -/
def backslashCh : Char := Char.ofNat 92

/-- Opening curly brace character. -/
def lbraceCh : Char := Char.ofNat 123

/-- Closing curly brace character. -/
def rbraceCh : Char := Char.ofNat 125

/-- JSON whitespace. -/
def jsonWs (c : Char) : Bool :=
  c = ' ' || c = Char.ofNat 9 || c = Char.ofNat 10 || c = Char.ofNat 13

/-- Drop leading JSON whitespace. -/
def skipWs (cs : List Char) : List Char := cs.dropWhile jsonWs

/-- ASCII decimal digit test for a character. -/
def isDigitCh (c : Char) : Bool := '0' ≤ c && c ≤ '9'

/-- Consume an exact literal token or fail. -/
def parseLit (lit : List Char) (cs : List Char) : Except String (List Char) :=
  if lit.isPrefixOf cs then .ok (cs.drop lit.length) else .error "Expecting value"

/-- Consume the rest of a JSON string literal after the opening quote,
skipping the character after every backslash. -/
def scanStringLit : Nat → List Char → Except String (List Char)
  | 0, _ => .error "Unterminated string"
  | _, [] => .error "Unterminated string"
  | Nat.succ fuel, c :: rest =>
    if c = quoteCh then .ok rest
    else if c = backslashCh then
      match rest with
      | [] => .error "Unterminated string"
      | _ :: rest2 => scanStringLit fuel rest2
    else scanStringLit fuel rest

/-- Consume a JSON number (optional sign, digits, optional fraction and
exponent) or fail. -/
def parseNumber (cs : List Char) : Except String (List Char) :=
  let cs1 := match cs with
    | c :: rest => if c = '-' then rest else cs
    | [] => cs
  let intPart := cs1.takeWhile isDigitCh
  if intPart.isEmpty then .error "Expecting value"
  else
    let cs2 := cs1.drop intPart.length
    let afterFrac : Except String (List Char) :=
      match cs2 with
      | c :: rest =>
        if c = '.' then
          let f := rest.takeWhile isDigitCh
          if f.isEmpty then .error "Expecting value"
          else .ok (rest.drop f.length)
        else .ok cs2
      | [] => .ok cs2
    match afterFrac with
    | .error e => .error e
    | .ok cs3 =>
      match cs3 with
      | c :: rest =>
        if c = 'e' || c = 'E' then
          let rest2 := match rest with
            | d :: rest2a => if d = '+' || d = '-' then rest2a else rest
            | [] => rest
          let ex := rest2.takeWhile isDigitCh
          if ex.isEmpty then .error "Expecting value"
          else .ok (rest2.drop ex.length)
        else .ok cs3
      | [] => .ok cs3

/-- Parser mode: a single value, the element list of an array after its
first element starts, or the member list of an object. -/
inductive PMode : Type
  | value
  | elements
  | members
deriving DecidableEq, Repr

/-- Fuel-bounded recursive-descent JSON recognizer: consumes one value
(or the remainder of an array or object) and returns the unconsumed
suffix, or a parse-error message. -/
def parseJ : Nat → PMode → List Char → Except String (List Char)
  | 0, _, _ => .error "Expecting value"
  | Nat.succ fuel, .value, cs0 =>
    match skipWs cs0 with
    | [] => .error "Expecting value"
    | c :: rest =>
      if c = quoteCh then scanStringLit (rest.length + 1) rest
      else if c = lbraceCh then
        match skipWs rest with
        | d :: rest2 =>
          if d = rbraceCh then .ok rest2 else parseJ fuel .members (d :: rest2)
        | [] => .error "Expecting property name"
      else if c = '[' then
        match skipWs rest with
        | d :: rest2 =>
          if d = ']' then .ok rest2 else parseJ fuel .elements (d :: rest2)
        | [] => .error "Expecting value"
      else if c = 't' then parseLit "true".toList (c :: rest)
      else if c = 'f' then parseLit "false".toList (c :: rest)
      else if c = 'n' then parseLit "null".toList (c :: rest)
      else parseNumber (c :: rest)
  | Nat.succ fuel, .elements, cs =>
    match parseJ fuel .value cs with
    | .error e => .error e
    | .ok rest =>
      match skipWs rest with
      | ',' :: rest2 => parseJ fuel .elements rest2
      | ']' :: rest2 => .ok rest2
      | _ => .error "Expecting comma delimiter"
  | Nat.succ fuel, .members, cs =>
    match skipWs cs with
    | c :: rest =>
      if c = quoteCh then
        match scanStringLit (rest.length + 1) rest with
        | .error e => .error e
        | .ok rest2 =>
          match skipWs rest2 with
          | ':' :: rest3 =>
            match parseJ fuel .value rest3 with
            | .error e => .error e
            | .ok rest4 =>
              match skipWs rest4 with
              | ',' :: rest5 => parseJ fuel .members rest5
              | d :: rest5 =>
                if d = rbraceCh then .ok rest5 else .error "Expecting comma delimiter"
              | [] => .error "Expecting comma delimiter"
          | _ => .error "Expecting colon delimiter"
      else .error "Expecting property name"
    | [] => .error "Expecting property name"

/-- Modelled from the spec (§4.2 `json`): recognize a complete JSON
document, rejecting trailing garbage; failures carry the parse-error
message. -/
def jsonValidate (s : String) : Except String Unit :=
  match parseJ (2 * s.length + 4) .value s.toList with
  | .error e => .error e
  | .ok rest => if (skipWs rest).isEmpty then .ok () else .error "Extra data"

/-- Modelled from the spec (§4.2 `json`, body of `Response.json` absent):
the string `json` decodes — when the headers declare no explicit charset
and the body is longer than three bytes, the encoding is detected by
`guess_json_utf` before falling back to the `text` decoding path (UTF-8
when nothing else applies). -/
def Response.jsonText (r : Response) : String :=
  let c := (r.content).1
  match (if declared_charset r.headers = none && decide (c.length > 3)
         then guess_json_utf c else none) with
  | some enc => decodeBytes enc c
  | none => if c.isEmpty then "" else decodeBytes ((r.textEncoding).getD "utf-8") c

/-- The parse step of `json`: a failure of the recognizer becomes the
dedicated JSON-decode error. -/
def Response.json (r : Response) : Except RequestsError Unit :=
  match jsonValidate r.jsonText with
  | .ok _ => .ok ()
  | .error m => .error (.jsonDecode m)

/-! ## Query-parameter encoding and URL preparation (spec §4.1 stage 2) -/

/-- The unreserved URI characters (`requests.utils.UNRESERVED_SET`, the
definition is in `utils.py`): ASCII letters, digits, and `-._~`. -/
def UNRESERVED_SET (b : Nat) : Bool :=
  isAlnumB b || b = 45 || b = 46 || b = 95 || b = 126

/-- Percent-encode one byte the way `urllib.parse.quote_plus` with an
empty safe set does: unreserved bytes kept, space becomes `+`, the rest
becomes an upper-case two-digit escape.  The always-kept set of Python's
`quote` (letters, digits, `_.-~`) coincides with `UNRESERVED_SET`. -/
def quotePlusByte (b : Nat) : List Nat :=
  if UNRESERVED_SET b then [b]
  else if b = 32 then [43]
  else [37, hexHi b, hexLo b]

/-- Percent-encode a byte string with `quotePlusByte`. -/
def quotePlus (s : List Nat) : List Nat := s.flatMap quotePlusByte

/-- Join lists with a separator between consecutive entries, as
`str.join` does. -/
def joinSep {α : Type} (sep : α) : List (List α) → List α
  | [] => []
  | [x] => x
  | x :: y :: t => x ++ sep :: joinSep sep (y :: t)

/-- One encoded `key=value` query entry. -/
def encodePair (p : List Nat × List Nat) : List Nat :=
  quotePlus p.1 ++ 61 :: quotePlus p.2

/-- Modelled from the spec (§4.1 stage 2, body of
`RequestEncodingMixin._encode_params` absent; its docstring is in
`models.py`): encode key/value pairs in their given order, joined with
`&`, each key and value percent-encoded. -/
def _encode_params (ps : List (List Nat × List Nat)) : List Nat :=
  joinSep 38 (ps.map encodePair)

/-- Modelled from the spec (§4.1 stage 2, body of
`PreparedRequest.prepare_url` absent): merge encoded params into the URL
query string — appended after `&` when the URL already carries a query
(split at the first `?`), else introduced with `?`; no params leave the
URL unchanged.  Scheme/host normalization, IDNA and re-quoting concern
other parts of the URL and are outside this model of the query merge. -/
def prepare_url (url : List Nat) (params : List (List Nat × List Nat)) : List Nat :=
  let enc := _encode_params params
  if enc.isEmpty then url
  else
    match url.span (fun b => b ≠ 63) with
    | (base, []) => base ++ 63 :: enc
    | (base, _q :: query) => base ++ 63 :: (query ++ 38 :: enc)

/-- The query string of a URL: everything after the first `?`. -/
def queryOf (url : List Nat) : List Nat := ((url.span (fun b => b ≠ 63)).2).drop 1

/-- The `&`-separated entries of a URL's query string. -/
def queryEntries (url : List Nat) : List (List Nat) := splitSep 38 (queryOf url)

/-! ## URI re-quoting (spec §4.1 stage 2, §8; `requests.utils`) -/

/-- Safe characters of `requote_uri` when percent is kept:
`!#$%&'()*+,/:;=?@[]~` as bytes. -/
def safeWithPercent : List Nat :=
  [33, 35, 36, 37, 38, 39, 40, 41, 42, 43, 44, 47, 58, 59, 61, 63, 64, 91, 93, 126]

/-- Safe characters of the `requote_uri` fallback, without percent. -/
def safeWithoutPercent : List Nat :=
  [33, 35, 36, 38, 39, 40, 41, 42, 43, 44, 47, 58, 59, 61, 63, 64, 91, 93, 126]

/-- Percent-encode one byte the way `urllib.parse.quote` does: bytes that
are unreserved (Python's always-safe set) or in the given safe list are
kept, the rest become an upper-case two-digit escape. -/
def quoteByte (safe : List Nat) (b : Nat) : List Nat :=
  if UNRESERVED_SET b || safe.contains b then [b] else [37, hexHi b, hexLo b]

/-- Percent-encode a byte string with `quoteByte`. -/
def pyquote (safe : List Nat) (s : List Nat) : List Nat :=
  s.flatMap (quoteByte safe)

/-- Modelled from the spec (§4.1 stage 2, body of
`requests.utils.unquote_unreserved` absent; its docstring is in
`utils.py`): un-escape percent-escapes that decode to unreserved
characters, leaving all other escapes encoded.  After a percent, two
alphanumeric characters that are not a valid hexadecimal pair raise the
invalid-URL error; anything shorter or non-alphanumeric leaves the
percent as literal text, one percent sign at a time as `str.split` on
percent does. -/
def unquote_unreserved : List Nat → Except RequestsError (List Nat)
  | [] => .ok []
  | 37 :: c1 :: c2 :: rest =>
    if isAlnumB c1 && isAlnumB c2 then
      if isHexB c1 && isHexB c2 then
        let d := hexValB c1 c2
        if UNRESERVED_SET d then Except.map (fun r => d :: r) (unquote_unreserved rest)
        else Except.map (fun r => 37 :: c1 :: c2 :: r) (unquote_unreserved rest)
      else .error .invalidURL
    else Except.map (fun r => 37 :: r) (unquote_unreserved (c1 :: c2 :: rest))
  | 37 :: rest => Except.map (fun r => 37 :: r) (unquote_unreserved rest)
  | b :: rest => Except.map (fun r => b :: r) (unquote_unreserved rest)

/-- Modelled from the spec (§4.1 stage 2 and §8, body of
`requests.utils.requote_uri` absent; its docstring is in `utils.py`):
unquote unreserved escapes then re-quote keeping percent safe; if
unquoting finds an invalid escape, quote the original with percent
unsafe so existing percents get escaped. -/
def requote_uri (uri : List Nat) : List Nat :=
  match unquote_unreserved uri with
  | .ok w => pyquote safeWithPercent w
  | .error _ => pyquote safeWithoutPercent uri

/-- All list elements are bytes (below 256). -/
def allBytes (s : List Nat) : Bool := s.all (· < 256)

/-- Every percent sign is followed by two hexadecimal digits. -/
def wellFormedEscapes : List Nat → Bool
  | [] => true
  | 37 :: c1 :: c2 :: rest => isHexB c1 && isHexB c2 && wellFormedEscapes rest
  | 37 :: _ => false
  | _ :: rest => wellFormedEscapes rest

/-- Invariant of `unquote_unreserved` output: every percent sign is
followed by a valid hexadecimal escape of a non-unreserved byte. -/
def outputEscInv : List Nat → Bool
  | [] => true
  | 37 :: c1 :: c2 :: rest =>
    isHexB c1 && isHexB c2 && !(UNRESERVED_SET (hexValB c1 c2)) && outputEscInv rest
  | 37 :: _ => false
  | _ :: rest => outputEscInv rest

/-! ## Header lookup lemmas -/

/-- Removing a header makes its case-insensitive lookup fail. -/
theorem hget_hremove (hs : Headers) (k : String) : hget (hremove hs k) k = none := by
  unfold hget hremove
  rw [Option.map_eq_none']
  rw [List.find?_eq_none]
  intro x hx
  have h2 := (List.mem_filter.mp hx).2
  simpa using h2

/-- Setting a header makes its case-insensitive lookup return the value. -/
theorem hget_hset (hs : Headers) (k v : String) : hget (hset hs k v) k = some v := by
  unfold hget hset
  rw [List.find?_append]
  have h1 : List.find? (fun p => lowerStr p.1 == lowerStr k)
      (List.filter (fun p => lowerStr p.1 != lowerStr k) hs) = none := by
    rw [List.find?_eq_none]
    intro x hx
    have h2 := (List.mem_filter.mp hx).2
    simpa using h2
  rw [h1]
  simp [List.find?]

/-! ## Claim C1 -/

/-- Claim C1: the first access of `content` materializes the body stream
into a single cached byte buffer; every subsequent access returns that
identical cached buffer with the response state (including the count of
stream reads) unchanged, so the underlying stream is not read again; and
`iter_content` with a chunk size, called after materialization, fails with
the stream-already-consumed error rather than yielding anything. -/
theorem claim_C1 (r : Response) (h : r._content = none) :
    (r.content).1 = r.raw.flatten ∧
    ((r.content).2)._content = some ((r.content).1) ∧
    (((r.content).2).content).1 = (r.content).1 ∧
    (((r.content).2).content).2 = (r.content).2 ∧
    (∀ n : Nat, ((r.content).2).iter_content (some n) = .error .streamConsumed) := by
  have hc : r.content = (r.raw.flatten,
      { r with
          _content := some r.raw.flatten
          _content_consumed := true
          raw := []
          rawReads := r.rawReads + r.raw.length }) := by
    unfold Response.content
    rw [h]
  rw [hc]
  exact ⟨rfl, rfl, rfl, rfl, fun n => rfl⟩

/-- A concrete streamed response for the C1 witness. -/
def rC1 : Response := ⟨200, [], [[104, 105], [33]], 0, none, none, false⟩

/-- Witness for C1: the concrete response materializes, re-reads from
cache with unchanged state, and refuses a re-iteration. -/
theorem claim_C1_witness :
    (rC1.content).1 = rC1.raw.flatten ∧
    ((rC1.content).2)._content = some ((rC1.content).1) ∧
    (((rC1.content).2).content).1 = (rC1.content).1 ∧
    (((rC1.content).2).content).2 = (rC1.content).2 ∧
    ((rC1.content).2).iter_content (some 1) = .error .streamConsumed := by
  have h := claim_C1 rC1 rfl
  exact ⟨h.1, h.2.1, h.2.2.1, h.2.2.2.1, h.2.2.2.2 1⟩

/-! ## Claim C8 -/

/-- Claim C8: `is_redirect` is true iff a `Location` header is present and
the status code is one of 301, 302, 303, 307, 308; `is_permanent_redirect`
is true iff a `Location` header is present and the status code is 301 or
308; with no `Location` header both are false. -/
theorem claim_C8 (r : Response) :
    (r.is_redirect = true ↔
      ((hget r.headers "location").isSome = true ∧
        r.status_code ∈ ([301, 302, 303, 307, 308] : List Nat))) ∧
    (r.is_permanent_redirect = true ↔
      ((hget r.headers "location").isSome = true ∧
        (r.status_code = 301 ∨ r.status_code = 308))) ∧
    (hget r.headers "location" = none →
      r.is_redirect = false ∧ r.is_permanent_redirect = false) := by
  refine ⟨?_, ?_, fun h => ?_⟩
  · simp [Response.is_redirect, REDIRECT_STATI, List.elem_iff]
  · simp [Response.is_permanent_redirect]
  · simp [Response.is_redirect, Response.is_permanent_redirect, h]

/-- A concrete redirect response for the C8 witness. -/
def rC8 : Response := ⟨302, [("Location", "http://e/")], [], 0, none, none, false⟩

/-- Witness for C8 at a concrete 302 response carrying a Location header. -/
theorem claim_C8_witness :
    ((rC8.is_redirect = true ↔
      ((hget rC8.headers "location").isSome = true ∧
        rC8.status_code ∈ ([301, 302, 303, 307, 308] : List Nat))) ∧
    (rC8.is_permanent_redirect = true ↔
      ((hget rC8.headers "location").isSome = true ∧
        (rC8.status_code = 301 ∨ rC8.status_code = 308))) ∧
    (hget rC8.headers "location" = none →
      rC8.is_redirect = false ∧ rC8.is_permanent_redirect = false)) :=
  claim_C8 rC8

/-! ## Claim C9 -/

/-- Claim C9: when the headers already contain a `Cookie` header,
`prepare_cookies` is a no-op on the whole prepared request, whatever jar
it is given; after removing the `Cookie` header, a call with a non-empty
jar regenerates it. -/
theorem claim_C9 (req : PreparedRequest) (jar : List SimpleCookie)
    (h : (hget req.headers "Cookie").isSome = true) :
    req.prepare_cookies jar = req ∧
    (jar ≠ [] →
      hget ((PreparedRequest.prepare_cookies
          { req with headers := hremove req.headers "Cookie" } jar).headers) "Cookie"
        = some (render_cookie_header jar)) := by
  constructor
  · unfold PreparedRequest.prepare_cookies get_cookie_header
    rw [h]
    rfl
  · intro hjar
    unfold PreparedRequest.prepare_cookies get_cookie_header
    rw [show hget (hremove req.headers "Cookie") "Cookie" = none from hget_hremove _ _]
    simp only [Option.isSome_none, Bool.false_eq_true, if_false, List.isEmpty_eq_true, hjar,
      if_true]
    exact hget_hset _ _ _

/-- A concrete prepared request already carrying a `Cookie` header, and a
one-cookie jar, for the C9 witness. -/
def pReqC9 : PreparedRequest := ⟨"GET", "http://a/", [("Cookie", "x=1")], none, .unset⟩

/-- The jar used by the C9 witness. -/
def jarC9 : List SimpleCookie := [⟨"n", "v", "", "/"⟩]

/-- Witness for C9: at the concrete request the second `prepare_cookies`
call is a no-op, and removal followed by a call regenerates the header. -/
theorem claim_C9_witness :
    pReqC9.prepare_cookies jarC9 = pReqC9 ∧
    (jarC9 ≠ [] →
      hget ((PreparedRequest.prepare_cookies
          { pReqC9 with headers := hremove pReqC9.headers "Cookie" } jarC9).headers) "Cookie"
        = some (render_cookie_header jarC9)) :=
  claim_C9 pReqC9 jarC9 rfl

/-! ## Claim C2 -/

/-- Claim C2: a 303 response to a POST with a body turns the follow-up
request into a GET with no body and no `Content-Length` header (the
record produced keeps every other field); a 307 response preserves the
POST method and repositions a seekable stream body to the start offset
recorded in `_body_position`; and when the body is a non-seekable stream
whose recorded position is the failure marker, the 307 resend attempt
fails with the unrewindable-body error. -/
theorem claim_C2 :
    (∀ (p : PreparedRequest), p.method = "POST" →
      redirect_hop p 303 = .ok { p with
          method := "GET"
          body := none
          _body_position := BodyPosition.unset
          headers := hremove p.headers "Content-Length" }) ∧
    (∀ (hs : Headers), hget (hremove hs "Content-Length") "Content-Length" = none) ∧
    (∀ (p : PreparedRequest) (b : BodyStream) (pos : Nat),
      p.method = "POST" → p.body = some b → b.seekable = true →
      p._body_position = .recorded pos →
      redirect_hop p 307 = .ok { p with body := some { b with pos := pos } }) ∧
    (∀ (p : PreparedRequest) (b : BodyStream),
      p.method = "POST" → p.body = some b → b.seekable = false →
      p._body_position = record_body_position b →
      redirect_hop p 307 = .error .unrewindableBody) := by
  refine ⟨?_, fun hs => hget_hremove hs _, ?_, ?_⟩
  · intro p hm
    simp [redirect_hop, rebuild_method, hm]
  · intro p b pos hm hb hs hpos
    simp [redirect_hop, rebuild_method, rewind_body, hm, hb, hs, hpos]
  · intro p b hm hb hs hpos
    simp [record_body_position, hs] at hpos
    simp [redirect_hop, rebuild_method, rewind_body, hm, hb, hs, hpos]

/-- Concrete POST request with a seekable, fully-read body recorded at
offset 0, for the C2 witness. -/
def bC2 : BodyStream := ⟨[1, 2, 3], 3, true⟩

/-- Concrete POST request carrying `bC2`. -/
def pC2 : PreparedRequest :=
  ⟨"POST", "http://a/b", [("Content-Length", "3")], some bC2, .recorded 0⟩

/-- Concrete non-seekable, partially-read body for the C2 witness. -/
def bC2n : BodyStream := ⟨[1, 2, 3], 2, false⟩

/-- Concrete POST request carrying the non-seekable body, position
recorded as the failure marker. -/
def pC2n : PreparedRequest :=
  ⟨"POST", "http://a/b", [("Content-Length", "3")], some bC2n, record_body_position bC2n⟩

/-- Witness for C2 at the concrete requests: the 303 hop, the removed
header, the 307 rewind, and the 307 unrewindable failure. -/
theorem claim_C2_witness :
    redirect_hop pC2 303 = .ok { pC2 with
        method := "GET"
        body := none
        _body_position := BodyPosition.unset
        headers := hremove pC2.headers "Content-Length" } ∧
    hget (hremove pC2.headers "Content-Length") "Content-Length" = none ∧
    redirect_hop pC2 307 = .ok { pC2 with body := some { bC2 with pos := 0 } } ∧
    redirect_hop pC2n 307 = .error .unrewindableBody :=
  ⟨claim_C2.1 pC2 rfl, claim_C2.2.1 pC2.headers,
    claim_C2.2.2.1 pC2 bC2 0 rfl rfl rfl rfl,
    claim_C2.2.2.2 pC2n bC2n rfl rfl rfl rfl⟩

/-! ## Claims C3 and C10 -/

/-- The accumulator scan of `_find_no_duplicates` summarized by the list
of matching cookies: with a remembered value any further match conflicts;
with none, zero matches is a key error, one match returns its value, two
or more conflict. -/
theorem findNoDupAux_spec (name : String) (domain path : Option String)
    (jar : List SimpleCookie) :
    ∀ (acc : Option String),
      RequestsCookieJar.findNoDupAux name domain path jar acc =
        match acc with
        | some v =>
          match jar.filter (fun c => cookieMatches c name domain path) with
          | [] => .ok v
          | _ :: _ => .error .cookieConflict
        | none =>
          match jar.filter (fun c => cookieMatches c name domain path) with
          | [] => .error .keyError
          | [c] => .ok c.value
          | _ :: _ :: _ => .error .cookieConflict := by
  induction jar with
  | nil =>
    intro acc
    cases acc <;> rfl
  | cons c t ih =>
    intro acc
    rw [List.filter_cons]
    by_cases h : cookieMatches c name domain path
    · simp only [RequestsCookieJar.findNoDupAux, h, if_true]
      cases acc with
      | some v => rfl
      | none =>
        rw [ih (some c.value)]
        cases hft : List.filter (fun c => cookieMatches c name domain path) t with
        | nil => rfl
        | cons a u => rfl
    · simp only [RequestsCookieJar.findNoDupAux, h, Bool.false_eq_true, if_false]
      exact ih acc

/-- `_find_no_duplicates` in terms of the list of matching cookies. -/
theorem find_no_dup_char (jar : List SimpleCookie) (name : String)
    (domain path : Option String) :
    RequestsCookieJar._find_no_duplicates jar name domain path =
      match jar.filter (fun c => cookieMatches c name domain path) with
      | [] => .error .keyError
      | [c] => .ok c.value
      | _ :: _ :: _ => .error .cookieConflict := by
  unfold RequestsCookieJar._find_no_duplicates
  rw [findNoDupAux_spec]

/-- A list containing two distinct elements has length at least two. -/
theorem two_le_length_of_two_mem {α : Type} {l : List α} {a b : α}
    (ha : a ∈ l) (hb : b ∈ l) (hne : a ≠ b) : 2 ≤ l.length := by
  cases l with
  | nil => cases ha
  | cons x t =>
    cases t with
    | nil =>
      simp only [List.mem_singleton] at ha hb
      exact absurd (ha.trans hb.symm) hne
    | cons y u => simp only [List.length_cons]; omega

/-- Claim C3: a jar holding two distinct cookies with the same name makes
`get` without domain and path fail with the cookie-conflict error; when
exactly one cookie matches the given name, domain, and path, `get`
returns its value; and `get` of an absent name returns the supplied
default. -/
theorem claim_C3 :
    (∀ (jar : List SimpleCookie) (name : String) (default : Option String)
        (c1 c2 : SimpleCookie), c1 ∈ jar → c2 ∈ jar → c1 ≠ c2 →
        c1.name = name → c2.name = name →
        RequestsCookieJar.get jar name default none none = .error .cookieConflict) ∧
    (∀ (jar : List SimpleCookie) (name : String) (default : Option String)
        (domain path : String) (c : SimpleCookie),
        jar.filter (fun x => cookieMatches x name (some domain) (some path)) = [c] →
        RequestsCookieJar.get jar name default (some domain) (some path) = .ok (some c.value)) ∧
    (∀ (jar : List SimpleCookie) (name : String) (default : Option String)
        (domain path : Option String),
        (∀ c ∈ jar, c.name ≠ name) →
        RequestsCookieJar.get jar name default domain path = .ok default) := by
  refine ⟨?_, ?_, ?_⟩
  · intro jar name default c1 c2 h1 h2 hne hn1 hn2
    have hm1 : c1 ∈ jar.filter (fun c => cookieMatches c name none none) :=
      List.mem_filter.mpr ⟨h1, by simp [cookieMatches, hn1]⟩
    have hm2 : c2 ∈ jar.filter (fun c => cookieMatches c name none none) :=
      List.mem_filter.mpr ⟨h2, by simp [cookieMatches, hn2]⟩
    have hlen := two_le_length_of_two_mem hm1 hm2 hne
    unfold RequestsCookieJar.get
    rw [find_no_dup_char]
    cases hf : jar.filter (fun c => cookieMatches c name none none) with
    | nil => rw [hf] at hlen; simp at hlen
    | cons a u =>
      cases u with
      | nil => rw [hf] at hlen; simp at hlen
      | cons b w => rfl
  · intro jar name default domain path c hf
    unfold RequestsCookieJar.get
    rw [find_no_dup_char, hf]
  · intro jar name default domain path hn
    have hf : jar.filter (fun c => cookieMatches c name domain path) = [] := by
      rw [List.filter_eq_nil_iff]
      intro c hc
      simp only [cookieMatches, Bool.and_eq_true, beq_iff_eq]
      rintro ⟨⟨hb, _⟩, _⟩
      exact hn c hc hb
    unfold RequestsCookieJar.get
    rw [find_no_dup_char, hf]

/-- The two-domain jar of the C3 and C10 witnesses. -/
def jarC3 : List SimpleCookie :=
  [⟨"id", "v1", "a.com", "/"⟩, ⟨"id", "v2", "b.com", "/"⟩]

/-- Witness for C3: on the concrete jar the unqualified lookup conflicts,
the domain- and path-qualified lookup returns the scoped value, and an
absent name returns the default. -/
theorem claim_C3_witness :
    RequestsCookieJar.get jarC3 "id" none none none = .error .cookieConflict ∧
    RequestsCookieJar.get jarC3 "id" none (some "a.com") (some "/") = .ok (some "v1") ∧
    RequestsCookieJar.get jarC3 "zz" (some "d") none none = .ok (some "d") :=
  ⟨claim_C3.1 jarC3 "id" none ⟨"id", "v1", "a.com", "/"⟩ ⟨"id", "v2", "b.com", "/"⟩
      (by decide) (by decide) (by decide) rfl rfl,
    claim_C3.2.1 jarC3 "id" none "a.com" "/" ⟨"id", "v1", "a.com", "/"⟩ (by decide),
    claim_C3.2.2 jarC3 "zz" (some "d") none none (by decide)⟩

/-- Claim C10: the membership test of the jar equals a plain scan for the
name — in particular it never propagates the conflict error — and
whenever the strict lookup fails with the cookie-conflict error the
membership test returns true. -/
theorem claim_C10 (jar : List SimpleCookie) (name : String) :
    (RequestsCookieJar.contains jar name = jar.any (fun c => c.name == name)) ∧
    (RequestsCookieJar._find_no_duplicates jar name none none = .error .cookieConflict →
      RequestsCookieJar.contains jar name = true) := by
  constructor
  · unfold RequestsCookieJar.contains
    rw [find_no_dup_char]
    cases hf : jar.filter (fun c => cookieMatches c name none none) with
    | nil =>
      have hall := List.filter_eq_nil_iff.mp hf
      symm
      rw [List.any_eq_false]
      intro c hc
      have h2 := hall c hc
      simpa [cookieMatches] using h2
    | cons a u =>
      have ha : a ∈ jar.filter (fun c => cookieMatches c name none none) := by
        rw [hf]; exact List.mem_cons_self a u
      obtain ⟨haj, hap⟩ := List.mem_filter.mp ha
      have hany : jar.any (fun c => c.name == name) = true :=
        List.any_eq_true.mpr ⟨a, haj, by simpa [cookieMatches] using hap⟩
      rw [hany]
      cases u <;> rfl
  · intro h
    unfold RequestsCookieJar.contains
    rw [h]

/-- Witness for C10: on the conflicting concrete jar the membership test
equals the scan and, with the strict lookup conflicting, returns true. -/
theorem claim_C10_witness :
    (RequestsCookieJar.contains jarC3 "id" = jarC3.any (fun c => c.name == "id")) ∧
    RequestsCookieJar.contains jarC3 "id" = true :=
  ⟨(claim_C10 jarC3 "id").1, (claim_C10 jarC3 "id").2 rfl⟩

/-! ## Claim C5 -/

/-- Claim C5: with `encoding` unset, `text` decodes using the charset
declared in the `Content-Type` header; with no declared charset and a
`text/*` media type it falls back to ISO-8859-1; empty content yields the
empty string; and the encoding `text` chooses never depends on the content
bytes, so statistical detection is never consulted. -/
theorem claim_C5 :
    (∀ (r : Response), (r.content).1 = [] → r.text = "") ∧
    (∀ (r : Response) (ct cs : String), r.encoding = none →
      hget r.headers "content-type" = some ct →
      charset_of_content_type ct = some cs →
      r.textEncoding = some cs) ∧
    (∀ (r : Response) (ct : String), r.encoding = none →
      hget r.headers "content-type" = some ct →
      charset_of_content_type ct = none →
      content_type_is_text ct = true →
      r.textEncoding = some "ISO-8859-1") ∧
    (∀ (r : Response) (raw2 : List (List Nat)) (rr : Nat)
        (cont : Option (List Nat)) (cc : Bool),
      Response.textEncoding
          { r with raw := raw2, rawReads := rr, _content := cont, _content_consumed := cc }
        = r.textEncoding) := by
  refine ⟨?_, ?_, ?_, ?_⟩
  · intro r h
    simp [Response.text, h]
  · intro r ct cs he hct hcs
    simp [Response.textEncoding, get_encoding_from_headers, he, hct, hcs]
  · intro r ct he hct hcs htext
    simp [Response.textEncoding, get_encoding_from_headers, he, hct, hcs, htext]
  · intro r raw2 rr cont cc
    rfl

/-- Concrete response declaring a charset, for the C5 witness. -/
def rC5charset : Response :=
  ⟨200, [("Content-Type", "text/html; charset=utf-8")], [strBytes "x"], 0, none, none, false⟩

/-- Concrete text response without a declared charset. -/
def rC5text : Response :=
  ⟨200, [("Content-Type", "text/html")], [strBytes "x"], 0, none, none, false⟩

/-- Concrete response with an empty body. -/
def rC5empty : Response :=
  ⟨200, [("Content-Type", "text/html")], [], 0, none, none, false⟩

/-- Witness for C5 at the concrete responses. -/
theorem claim_C5_witness :
    rC5empty.text = "" ∧
    rC5charset.textEncoding = some "utf-8" ∧
    rC5text.textEncoding = some "ISO-8859-1" ∧
    Response.textEncoding
        { rC5charset with raw := [], rawReads := 5, _content := some [1], _content_consumed := true }
      = rC5charset.textEncoding :=
  ⟨claim_C5.1 rC5empty rfl,
    claim_C5.2.1 rC5charset "text/html; charset=utf-8" "utf-8" rfl rfl rfl,
    claim_C5.2.2.1 rC5text "text/html" rfl rfl rfl rfl,
    claim_C5.2.2.2 rC5charset [] 5 (some [1]) true⟩

/-! ## Claim C6 -/

/-- Concrete response whose body is the bytes of `not json`. -/
def rC6 : Response :=
  ⟨200, [("Content-Type", "application/json")], [strBytes "not json"], 0, none, none, false⟩

/-- Claim C6: any failure of `json` is the dedicated JSON-decode error
kind, never another; on the `not json` body it is exactly that error;
`guess_json_utf` detects UTF-8 for a four-byte sample with no nulls and no
BOM, the UTF-16/32 variants by their null-byte patterns, and the BOMs; and
with no declared charset and more than three content bytes, `json`
decodes with the guessed encoding. -/
theorem claim_C6 :
    (∀ (r : Response) (e : RequestsError), r.json = .error e → ∃ m, e = .jsonDecode m) ∧
    rC6.json = .error (.jsonDecode "Expecting value") ∧
    (∀ (bs : List Nat), bs.length = 4 → (∀ b ∈ bs, b ≠ 0) →
      bs.take 2 ≠ [255, 254] → bs.take 2 ≠ [254, 255] → bs.take 3 ≠ [239, 187, 191] →
      guess_json_utf bs = some "utf-8") ∧
    guess_json_utf [0, 97, 0, 98] = some "utf-16-be" ∧
    guess_json_utf [97, 0, 98, 0] = some "utf-16-le" ∧
    guess_json_utf [0, 0, 0, 97] = some "utf-32-be" ∧
    guess_json_utf [97, 0, 0, 0] = some "utf-32-le" ∧
    guess_json_utf [255, 254, 0, 0] = some "utf-32" ∧
    guess_json_utf [239, 187, 191, 97] = some "utf-8-sig" ∧
    guess_json_utf [254, 255, 0, 97] = some "utf-16" ∧
    (∀ (r : Response) (enc : String), declared_charset r.headers = none →
      ((r.content).1).length > 3 → guess_json_utf ((r.content).1) = some enc →
      r.jsonText = decodeBytes enc ((r.content).1)) := by
  refine ⟨?_, rfl, ?_, rfl, rfl, rfl, rfl, rfl, rfl, rfl, ?_⟩
  · intro r e h
    unfold Response.json at h
    split at h
    · exact absurd h (by simp)
    · rename_i m hm
      refine ⟨m, ?_⟩
      injection h with h2
      exact h2.symm
  · intro bs hlen hnz h1 h2 h3
    rcases bs with _ | ⟨a, bs⟩
    · simp at hlen
    rcases bs with _ | ⟨b, bs⟩
    · simp at hlen
    rcases bs with _ | ⟨c, bs⟩
    · simp at hlen
    rcases bs with _ | ⟨d, bs⟩
    · simp at hlen
    rcases bs with _ | ⟨e, bs⟩
    swap
    · simp at hlen
    have ha : a ≠ 0 := hnz a (by simp)
    have hb : b ≠ 0 := hnz b (by simp)
    have hc : c ≠ 0 := hnz c (by simp)
    have hd : d ≠ 0 := hnz d (by simp)
    simp only [List.take_succ_cons, List.take_zero] at h1 h2 h3
    simp [guess_json_utf, ha, hb, hc, hd, h1, h2, h3]
  · intro r enc hdc hlen hg
    simp only [Response.jsonText, hdc, hg]
    simp [hlen, hg]

/-- Witness for C6: a concrete no-null sample detects as UTF-8, and the
concrete charset-less response decodes its body with the guessed UTF-8. -/
theorem claim_C6_witness :
    guess_json_utf [104, 105, 106, 107] = some "utf-8" ∧
    Response.jsonText rC6 = decodeBytes "utf-8" ((rC6.content).1) :=
  ⟨claim_C6.2.2.1 [104, 105, 106, 107] rfl (by decide) (by decide) (by decide) (by decide),
    claim_C6.2.2.2.2.2.2.2.2.2.2 rC6 "utf-8" rfl (by decide) rfl⟩

/-! ## Claim C4 -/

/-- Splitting never yields an empty segment list. -/
theorem splitSep_ne_nil {α : Type} [DecidableEq α] (sep : α) (l : List α) :
    splitSep sep l ≠ [] := by
  cases l with
  | nil => simp [splitSep]
  | cons c cs =>
    unfold splitSep
    cases h : splitSep sep cs with
    | nil => simp
    | cons a b => by_cases hc : c = sep <;> simp [hc]

/-- Splitting distributes over concatenation at a separator. -/
theorem splitSep_append {α : Type} [DecidableEq α] (sep : α) (xs ys : List α) :
    splitSep sep (xs ++ sep :: ys) = splitSep sep xs ++ splitSep sep ys := by
  induction xs with
  | nil =>
    cases h : splitSep sep ys with
    | nil => exact absurd h (splitSep_ne_nil sep ys)
    | cons a b =>
      simp only [List.nil_append]
      conv_lhs => unfold splitSep
      rw [h]
      simp [splitSep]
  | cons c cs ih =>
    cases h : splitSep sep cs with
    | nil => exact absurd h (splitSep_ne_nil sep cs)
    | cons a b =>
      have hr : splitSep sep (c :: cs) = if c = sep then [] :: a :: b else (c :: a) :: b := by
        conv_lhs => unfold splitSep
        rw [h]
      simp only [List.cons_append]
      conv_lhs => unfold splitSep
      rw [ih, h, hr]
      by_cases hc : c = sep <;> simp [hc]

/-- A separator-free list splits into itself. -/
theorem splitSep_of_not_mem {α : Type} [DecidableEq α] (sep : α) (l : List α)
    (h : sep ∉ l) : splitSep sep l = [l] := by
  induction l with
  | nil => rfl
  | cons c cs ih =>
    have hc : c ≠ sep := fun hc => h (hc ▸ List.mem_cons_self c cs)
    have hcs : sep ∉ cs := fun hm => h (List.mem_cons_of_mem c hm)
    unfold splitSep
    rw [ih hcs]
    simp [hc]

/-- Splitting a separator-join of separator-free entries recovers them. -/
theorem splitSep_joinSep {α : Type} [DecidableEq α] (sep : α) :
    ∀ (xs : List (List α)), xs ≠ [] → (∀ x ∈ xs, sep ∉ x) →
      splitSep sep (joinSep sep xs) = xs
  | [], h, _ => absurd rfl h
  | [x], _, hm => by
    unfold joinSep
    exact splitSep_of_not_mem sep x (hm x (List.mem_singleton_self x))
  | x :: y :: t, _, hm => by
    unfold joinSep
    rw [splitSep_append]
    rw [splitSep_of_not_mem sep x (hm x (List.mem_cons_self x _))]
    rw [splitSep_joinSep sep (y :: t) (by simp) (fun z hz => hm z (List.mem_cons_of_mem x hz))]
    rfl

/-- Hexadecimal digit bytes are at least `0`. -/
theorem hexDigitUpper_ge (n : Nat) : 48 ≤ hexDigitUpper n := by
  unfold hexDigitUpper
  split <;> omega

/-- The query encoding of a byte never contains an ampersand. -/
theorem amp_not_mem_quotePlusByte (b : Nat) : 38 ∉ quotePlusByte b := by
  unfold quotePlusByte
  split
  · rename_i h
    simp only [List.mem_singleton]
    intro heq
    rw [← heq] at h
    simp [UNRESERVED_SET, isAlnumB, isAlphaB, isDigitB] at h
  · split
    · decide
    · intro hmem
      have h1 := hexDigitUpper_ge (b / 16)
      have h2 := hexDigitUpper_ge (b % 16)
      rcases List.mem_cons.mp hmem with h | h
      · omega
      rcases List.mem_cons.mp h with h | h
      · unfold hexHi at h; omega
      rcases List.mem_cons.mp h with h | h
      · unfold hexLo at h; omega
      · cases h

/-- An encoded query pair never contains an ampersand. -/
theorem amp_not_mem_encodePair (p : List Nat × List Nat) : 38 ∉ encodePair p := by
  unfold encodePair quotePlus
  intro hmem
  rcases List.mem_append.mp hmem with h | h
  · obtain ⟨b, _, hb⟩ := List.mem_flatMap.mp h
    exact amp_not_mem_quotePlusByte b hb
  · rcases List.mem_cons.mp h with h61 | h
    · exact absurd h61 (by decide)
    · obtain ⟨b, _, hb⟩ := List.mem_flatMap.mp h
      exact amp_not_mem_quotePlusByte b hb

/-- An encoded query pair is never empty (it contains `=`). -/
theorem encodePair_ne_nil (p : List Nat × List Nat) : encodePair p ≠ [] := by
  unfold encodePair
  simp

/-- Encoding a non-empty parameter list yields a non-empty string. -/
theorem encode_params_ne_nil (ps : List (List Nat × List Nat)) (h : ps ≠ []) :
    _encode_params ps ≠ [] := by
  unfold _encode_params
  cases ps with
  | nil => exact absurd rfl h
  | cons p t =>
    cases t with
    | nil =>
      simp only [List.map_cons, List.map_nil, joinSep]
      exact encodePair_ne_nil p
    | cons p2 t2 =>
      simp only [List.map_cons, joinSep]
      simp

/-- Spanning up to the first question mark splits a URL at it. -/
theorem span_no_q (base q : List Nat) (h : 63 ∉ base) :
    (base ++ 63 :: q).span (fun b => b ≠ 63) = (base, 63 :: q) := by
  induction base with
  | nil => simp [List.span_eq_take_drop, List.takeWhile, List.dropWhile]
  | cons a t ih =>
    have ha : a ≠ 63 := fun heq => h (heq ▸ List.mem_cons_self a t)
    have ht : 63 ∉ t := fun hm => h (List.mem_cons_of_mem a hm)
    have ih2 := ih ht
    simp only [List.span_eq_take_drop, List.cons_append, List.takeWhile_cons,
      List.dropWhile_cons, ha, decide_not] at ih2 ⊢
    simp only [Prod.mk.injEq] at ih2
    simp [ha, ih2.1, ih2.2]

/-- Claim C4: preparing a URL that already carries a query string with a
non-empty parameter list yields a URL whose query entries are exactly the
existing entries, unchanged and first, followed by one encoded entry per
parameter pair in their given order; in particular params a=1, b=2 against
`http://x/y?z=1` give the query entries z=1, a=1, b=2 in that order. -/
theorem claim_C4 :
    (∀ (base q : List Nat) (ps : List (List Nat × List Nat)),
      63 ∉ base → ps ≠ [] →
      queryEntries (prepare_url (base ++ 63 :: q) ps) =
        splitSep 38 q ++ ps.map encodePair) ∧
    prepare_url (strBytes "http://x/y?z=1")
        [(strBytes "a", strBytes "1"), (strBytes "b", strBytes "2")] =
      strBytes "http://x/y?z=1&a=1&b=2" ∧
    queryEntries (prepare_url (strBytes "http://x/y?z=1")
        [(strBytes "a", strBytes "1"), (strBytes "b", strBytes "2")]) =
      [strBytes "z=1", strBytes "a=1", strBytes "b=2"] := by
  refine ⟨?_, by decide, by decide⟩
  intro base q ps hb hps
  have henc : _encode_params ps ≠ [] := encode_params_ne_nil ps hps
  have hencE : (_encode_params ps).isEmpty = false := by
    cases hE : _encode_params ps with
    | nil => exact absurd hE henc
    | cons x t => rfl
  unfold prepare_url
  rw [span_no_q base q hb]
  simp only [hencE, Bool.false_eq_true, if_false]
  unfold queryEntries queryOf
  rw [span_no_q base (q ++ 38 :: _encode_params ps) hb]
  simp only [List.drop_succ_cons, List.drop_zero]
  rw [splitSep_append]
  congr 1
  unfold _encode_params
  refine splitSep_joinSep 38 (ps.map encodePair) ?_ ?_
  · intro hmn
    exact hps (by simpa using hmn)
  · intro x hx
    obtain ⟨p, _, rfl⟩ := List.mem_map.mp hx
    exact amp_not_mem_encodePair p

/-- Witness for C4: the general merge statement applied at the concrete
URL and a one-pair parameter list. -/
theorem claim_C4_witness :
    queryEntries (prepare_url (strBytes "http://x/y" ++ 63 :: strBytes "z=1")
        [(strBytes "a", strBytes "1")]) =
      splitSep 38 (strBytes "z=1") ++
        ([(strBytes "a", strBytes "1")]).map encodePair :=
  claim_C4.1 (strBytes "http://x/y") (strBytes "z=1")
    [(strBytes "a", strBytes "1")] (by decide) (by decide)

/-! ## Claim C7 -/

/-- Hexadecimal digit bytes are alphanumeric. -/
theorem isHexB_isAlnumB (b : Nat) (h : isHexB b = true) : isAlnumB b = true := by
  simp only [isHexB, isDigitB, isAlnumB, isAlphaB, Bool.or_eq_true, Bool.and_eq_true,
    decide_eq_true_eq] at h ⊢
  omega

/-- Hexadecimal digit bytes are unreserved. -/
theorem unres_of_isHexB (b : Nat) (h : isHexB b = true) : UNRESERVED_SET b = true := by
  simp only [isHexB, isDigitB, UNRESERVED_SET, isAlnumB, isAlphaB, Bool.or_eq_true,
    Bool.and_eq_true, decide_eq_true_eq] at h ⊢
  omega

/-- Unreserved bytes are not the percent sign. -/
theorem ne_37_of_unres (b : Nat) (h : UNRESERVED_SET b = true) : b ≠ 37 := by
  simp only [UNRESERVED_SET, isAlnumB, isAlphaB, isDigitB, Bool.or_eq_true, Bool.and_eq_true,
    decide_eq_true_eq] at h
  omega

/-- Hexadecimal digit bytes are not the percent sign. -/
theorem ne_37_of_isHexB (b : Nat) (h : isHexB b = true) : b ≠ 37 :=
  ne_37_of_unres b (unres_of_isHexB b h)

/-- A hexadecimal digit value is at most fifteen. -/
theorem hexDigitVal_le (b : Nat) : hexDigitVal b ≤ 15 := by
  unfold hexDigitVal isDigitB
  split
  · rename_i h
    simp only [Bool.and_eq_true, decide_eq_true_eq] at h
    omega
  · split
    · rename_i h
      simp only [Bool.and_eq_true, decide_eq_true_eq] at h
      omega
    · split
      · rename_i h
        simp only [Bool.and_eq_true, decide_eq_true_eq] at h
        omega
      · omega

/-- A decoded escape is a byte. -/
theorem hexValB_lt (c1 c2 : Nat) : hexValB c1 c2 < 256 := by
  have h1 := hexDigitVal_le c1
  have h2 := hexDigitVal_le c2
  unfold hexValB
  omega

/-- Encoding then decoding a hexadecimal digit is the identity. -/
theorem hexDigitVal_hexDigitUpper (n : Nat) (h : n < 16) :
    hexDigitVal (hexDigitUpper n) = n := by
  by_cases h10 : n < 10
  · have hd : isDigitB (n + 48) = true := by
      simp only [isDigitB, Bool.and_eq_true, decide_eq_true_eq]
      omega
    simp only [hexDigitUpper, if_pos h10, hexDigitVal, hd, if_true]
    omega
  · have hd : isDigitB (n + 55) = false := by
      simp only [isDigitB]
      have hn : ¬(n + 55 ≤ 57) := by omega
      simp [hn]
    simp only [hexDigitUpper, if_neg h10, hexDigitVal, hd, Bool.false_eq_true, if_false]
    have h65 : (65 ≤ n + 55 && n + 55 ≤ 70) = true := by
      simp only [Bool.and_eq_true, decide_eq_true_eq]
      omega
    rw [if_pos h65]
    omega

/-- Upper-case hexadecimal digit bytes are hexadecimal digits. -/
theorem isHexB_hexDigitUpper (n : Nat) (h : n < 16) : isHexB (hexDigitUpper n) = true := by
  unfold hexDigitUpper
  split <;>
    (simp only [isHexB, isDigitB, Bool.or_eq_true, Bool.and_eq_true, decide_eq_true_eq]; omega)

/-- Hexadecimal digit bytes are bytes. -/
theorem hexDigitUpper_lt (n : Nat) (h : n < 16) : hexDigitUpper n < 256 := by
  unfold hexDigitUpper
  split <;> omega

/-- Splitting a byte into hexadecimal digits and recombining is the
identity. -/
theorem hexValB_roundtrip (b : Nat) (h : b < 256) : hexValB (hexHi b) (hexLo b) = b := by
  unfold hexValB hexHi hexLo
  rw [hexDigitVal_hexDigitUpper (b / 16) (by omega), hexDigitVal_hexDigitUpper (b % 16) (by omega)]
  omega

/-- `unquote_unreserved` passes a non-percent head byte through. -/
theorem uu_cons_ne (b : Nat) (rest : List Nat) (hb : b ≠ 37) :
    unquote_unreserved (b :: rest) = Except.map (fun r => b :: r) (unquote_unreserved rest) := by
  conv_lhs => unfold unquote_unreserved
  split
  all_goals
    first
      | (rename_i heq; exact List.noConfusion heq)
      | (rename_i heq; exact absurd (List.cons.inj heq).1 hb)
      | (rename_i heq
         obtain ⟨h1, h2⟩ := List.cons.inj heq
         subst h1; subst h2; rfl)

/-- `unquote_unreserved` on a valid escape decodes or keeps it according
to the unreserved set. -/
theorem uu_esc (c1 c2 : Nat) (rest : List Nat)
    (h1 : isHexB c1 = true) (h2 : isHexB c2 = true) :
    unquote_unreserved (37 :: c1 :: c2 :: rest) =
      if UNRESERVED_SET (hexValB c1 c2) = true
      then Except.map (fun r => hexValB c1 c2 :: r) (unquote_unreserved rest)
      else Except.map (fun r => 37 :: c1 :: c2 :: r) (unquote_unreserved rest) := by
  conv_lhs => unfold unquote_unreserved
  rw [if_pos (by simp [isHexB_isAlnumB c1 h1, isHexB_isAlnumB c2 h2]),
    if_pos (by simp [h1, h2])]

/-- The output invariant ignores a non-percent head byte. -/
theorem outInv_cons_ne (b : Nat) (rest : List Nat) (hb : b ≠ 37) :
    outputEscInv (b :: rest) = outputEscInv rest := by
  conv_lhs => unfold outputEscInv
  split
  all_goals
    first
      | (rename_i heq; exact List.noConfusion heq)
      | (rename_i heq; exact absurd (List.cons.inj heq).1 hb)
      | (rename_i heq
         obtain ⟨h1, h2⟩ := List.cons.inj heq
         subst h1; subst h2; rfl)

/-- The output invariant at an escape head. -/
theorem outInv_cons_esc (c1 c2 : Nat) (rest : List Nat) :
    outputEscInv (37 :: c1 :: c2 :: rest) =
      (isHexB c1 && isHexB c2 && !(UNRESERVED_SET (hexValB c1 c2)) && outputEscInv rest) := by
  conv_lhs => unfold outputEscInv

/-- Well-formedness of escapes ignores a non-percent head byte. -/
theorem wfEsc_cons_ne (b : Nat) (rest : List Nat) (hb : b ≠ 37) :
    wellFormedEscapes (b :: rest) = wellFormedEscapes rest := by
  conv_lhs => unfold wellFormedEscapes
  split
  all_goals
    first
      | (rename_i heq; exact List.noConfusion heq)
      | (rename_i heq; exact absurd (List.cons.inj heq).1 hb)
      | (rename_i heq
         obtain ⟨h1, h2⟩ := List.cons.inj heq
         subst h1; subst h2; rfl)

/-- Well-formedness of escapes at an escape head. -/
theorem wfEsc_cons_esc (c1 c2 : Nat) (rest : List Nat) :
    wellFormedEscapes (37 :: c1 :: c2 :: rest) =
      (isHexB c1 && isHexB c2 && wellFormedEscapes rest) := by
  conv_lhs => unfold wellFormedEscapes

/-- Byte-ness of a list as a membership statement. -/
theorem allBytes_iff (s : List Nat) : allBytes s = true ↔ ∀ b ∈ s, b < 256 := by
  simp [allBytes, List.all_eq_true]

/-- On a byte string whose escapes are well formed, unquoting succeeds
and its output satisfies the escape invariant: every remaining escape is
a valid hexadecimal escape of a non-unreserved byte. -/
theorem uu_wf : ∀ (u : List Nat), wellFormedEscapes u = true → allBytes u = true →
    ∃ w, unquote_unreserved u = .ok w ∧ outputEscInv w = true ∧ allBytes w = true := by
  intro u
  induction u using wellFormedEscapes.induct with
  | case1 =>
    intro _ _
    exact ⟨[], rfl, rfl, rfl⟩
  | case2 c1 c2 rest ih =>
    intro hwf hab
    rw [wfEsc_cons_esc] at hwf
    simp only [Bool.and_eq_true] at hwf
    obtain ⟨⟨h1, h2⟩, hwfr⟩ := hwf
    have habl : ∀ b ∈ (37 :: c1 :: c2 :: rest), b < 256 := (allBytes_iff _).mp hab
    have hab1 : c1 < 256 := habl c1 (by simp)
    have hab2 : c2 < 256 := habl c2 (by simp)
    have habr : allBytes rest = true := (allBytes_iff _).mpr (fun b hb => habl b (by simp [hb]))
    obtain ⟨w, hw, hinv, hwb⟩ := ih hwfr habr
    rw [uu_esc c1 c2 rest h1 h2]
    by_cases hU : UNRESERVED_SET (hexValB c1 c2) = true
    · rw [if_pos hU, hw]
      refine ⟨hexValB c1 c2 :: w, rfl, ?_, ?_⟩
      · rw [outInv_cons_ne _ _ (ne_37_of_unres _ hU)]
        exact hinv
      · refine (allBytes_iff _).mpr (fun b hb => ?_)
        rcases List.mem_cons.mp hb with h | h
        · subst h; exact hexValB_lt c1 c2
        · exact (allBytes_iff _).mp hwb b h
    · rw [if_neg hU, hw]
      refine ⟨37 :: c1 :: c2 :: w, rfl, ?_, ?_⟩
      · rw [outInv_cons_esc]
        simp [h1, h2, hU, hinv]
      · refine (allBytes_iff _).mpr (fun b hb => ?_)
        rcases List.mem_cons.mp hb with h | h
        · omega
        rcases List.mem_cons.mp h with h | h
        · subst h; exact hab1
        rcases List.mem_cons.mp h with h | h
        · subst h; exact hab2
        · exact (allBytes_iff _).mp hwb b h
  | case3 rest hshape =>
    intro hwf _
    rcases rest with _ | ⟨x, _ | ⟨y, t2⟩⟩
    · exact absurd hwf (by decide)
    · have hred : wellFormedEscapes (37 :: x :: []) = false := by
        conv_lhs => unfold wellFormedEscapes
      rw [hred] at hwf
      exact absurd hwf (by decide)
    · exact absurd rfl (hshape x y t2)
  | case4 b rest hc1 hc2 ih =>
    intro hwf hab
    have hb : b ≠ 37 := fun h => hc2 h
    rw [wfEsc_cons_ne b rest hb] at hwf
    have habl := (allBytes_iff _).mp hab
    have habr : allBytes rest = true := (allBytes_iff _).mpr (fun x hx => habl x (by simp [hx]))
    obtain ⟨w, hw, hinv, hwb⟩ := ih hwf habr
    rw [uu_cons_ne b rest hb, hw]
    refine ⟨b :: w, rfl, ?_, ?_⟩
    · rw [outInv_cons_ne b w hb]
      exact hinv
    · refine (allBytes_iff _).mpr (fun y hy => ?_)
      rcases List.mem_cons.mp hy with h | h
      · rw [h]; exact habl b (by simp)
      · exact (allBytes_iff _).mp hwb y h

/-- A safe or unreserved byte is kept by quoting. -/
theorem quoteByte_keep (safe : List Nat) (b : Nat)
    (h : (UNRESERVED_SET b || safe.contains b) = true) : quoteByte safe b = [b] := by
  unfold quoteByte
  rw [if_pos h]

/-- An unsafe byte is escaped by quoting. -/
theorem quoteByte_esc (safe : List Nat) (b : Nat)
    (h : (UNRESERVED_SET b || safe.contains b) = false) :
    quoteByte safe b = [37, hexHi b, hexLo b] := by
  unfold quoteByte
  rw [if_neg (fun hc => Bool.false_ne_true (h ▸ hc))]

/-- Quoting a cons. -/
theorem pyquote_cons (safe : List Nat) (b : Nat) (s : List Nat) :
    pyquote safe (b :: s) = quoteByte safe b ++ pyquote safe s := rfl

/-- Quoting distributes over concatenation. -/
theorem pyquote_append (safe : List Nat) (s t : List Nat) :
    pyquote safe (s ++ t) = pyquote safe s ++ pyquote safe t := by
  simp [pyquote]

/-- A string satisfying the output escape invariant is a fixed point of
unquoting. -/
theorem uu_fix : ∀ (w : List Nat), outputEscInv w = true → unquote_unreserved w = .ok w := by
  intro w
  induction w using outputEscInv.induct with
  | case1 => intro _; rfl
  | case2 c1 c2 rest ih =>
    intro hinv
    rw [outInv_cons_esc] at hinv
    simp only [Bool.and_eq_true, Bool.not_eq_true'] at hinv
    obtain ⟨⟨⟨h1, h2⟩, hU⟩, hinvr⟩ := hinv
    rw [uu_esc c1 c2 rest h1 h2, if_neg (by simp [hU]), ih hinvr]
    rfl
  | case3 rest hshape =>
    intro hinv
    rcases rest with _ | ⟨x, _ | ⟨y, t2⟩⟩
    · exact absurd hinv (by decide)
    · have hred : outputEscInv (37 :: x :: []) = false := by
        conv_lhs => unfold outputEscInv
      rw [hred] at hinv
      exact absurd hinv (by decide)
    · exact absurd rfl (hshape x y t2)
  | case4 b rest hc1 hc2 ih =>
    intro hinv
    have hb : b ≠ 37 := fun h => hc2 h
    rw [outInv_cons_ne b rest hb] at hinv
    rw [uu_cons_ne b rest hb, ih hinv]
    rfl

/-- Quoting with percent safe preserves the output escape invariant. -/
theorem outInv_quote : ∀ (w : List Nat), allBytes w = true → outputEscInv w = true →
    outputEscInv (pyquote safeWithPercent w) = true := by
  intro w
  induction w using outputEscInv.induct with
  | case1 => intro _ _; rfl
  | case2 c1 c2 rest ih =>
    intro hab hinv
    rw [outInv_cons_esc] at hinv
    simp only [Bool.and_eq_true, Bool.not_eq_true'] at hinv
    obtain ⟨⟨⟨h1, h2⟩, hU⟩, hinvr⟩ := hinv
    have habr : allBytes rest = true := by
      rw [allBytes_iff] at hab ⊢
      exact fun b hb => hab b (by simp [hb])
    rw [pyquote_cons, pyquote_cons, pyquote_cons]
    rw [quoteByte_keep _ 37 (by decide),
      quoteByte_keep _ c1 (by simp [unres_of_isHexB c1 h1]),
      quoteByte_keep _ c2 (by simp [unres_of_isHexB c2 h2])]
    simp only [List.cons_append, List.nil_append]
    rw [outInv_cons_esc]
    simp [h1, h2, hU, ih habr hinvr]
  | case3 rest hshape =>
    intro _ hinv
    rcases rest with _ | ⟨x, _ | ⟨y, t2⟩⟩
    · exact absurd hinv (by decide)
    · have hred : outputEscInv (37 :: x :: []) = false := by
        conv_lhs => unfold outputEscInv
      rw [hred] at hinv
      exact absurd hinv (by decide)
    · exact absurd rfl (hshape x y t2)
  | case4 b rest hc1 hc2 ih =>
    intro hab hinv
    have hb : b ≠ 37 := fun h => hc2 h
    have hblt : b < 256 := (allBytes_iff _).mp hab b (by simp)
    have habr : allBytes rest = true := by
      rw [allBytes_iff] at hab ⊢
      exact fun y hy => hab y (by simp [hy])
    rw [outInv_cons_ne b rest hb] at hinv
    rw [pyquote_cons]
    by_cases hk : (UNRESERVED_SET b || safeWithPercent.contains b) = true
    · rw [quoteByte_keep _ b hk]
      simp only [List.cons_append, List.nil_append]
      rw [outInv_cons_ne _ _ hb]
      exact ih habr hinv
    · have hk2 : (UNRESERVED_SET b || safeWithPercent.contains b) = false := by
        simpa using hk
      rw [quoteByte_esc _ b hk2]
      simp only [List.cons_append, List.nil_append]
      rw [outInv_cons_esc]
      have hU : UNRESERVED_SET b = false := (Bool.or_eq_false_iff.mp hk2).1
      have hh1 : isHexB (hexHi b) = true := by
        unfold hexHi; exact isHexB_hexDigitUpper (b / 16) (by omega)
      have hh2 : isHexB (hexLo b) = true := by
        unfold hexLo; exact isHexB_hexDigitUpper (b % 16) (by omega)
      simp [hh1, hh2, hexValB_roundtrip b hblt, hU, ih habr hinv]

/-- Every byte emitted by quoting is kept by a second quoting. -/
theorem pyquote_quoteByte_fix (b : Nat) (h : b < 256) :
    pyquote safeWithPercent (quoteByte safeWithPercent b) = quoteByte safeWithPercent b := by
  by_cases hk : (UNRESERVED_SET b || safeWithPercent.contains b) = true
  · rw [quoteByte_keep _ b hk, pyquote_cons, quoteByte_keep _ b hk]
    rfl
  · have hk2 : (UNRESERVED_SET b || safeWithPercent.contains b) = false := by
      simpa using hk
    have hh1 : isHexB (hexHi b) = true := by
      unfold hexHi; exact isHexB_hexDigitUpper (b / 16) (by omega)
    have hh2 : isHexB (hexLo b) = true := by
      unfold hexLo; exact isHexB_hexDigitUpper (b % 16) (by omega)
    rw [quoteByte_esc _ b hk2]
    rw [pyquote_cons, pyquote_cons, pyquote_cons]
    rw [quoteByte_keep _ 37 (by decide),
      quoteByte_keep _ (hexHi b) (by simp [unres_of_isHexB _ hh1]),
      quoteByte_keep _ (hexLo b) (by simp [unres_of_isHexB _ hh2])]
    rfl

/-- Quoting with percent safe is idempotent on byte strings. -/
theorem pyquote_fix : ∀ (w : List Nat), allBytes w = true →
    pyquote safeWithPercent (pyquote safeWithPercent w) = pyquote safeWithPercent w := by
  intro w
  induction w with
  | nil => intro _; rfl
  | cons b rest ih =>
    intro hab
    have hblt : b < 256 := (allBytes_iff _).mp hab b (by simp)
    have habr : allBytes rest = true := by
      rw [allBytes_iff] at hab ⊢
      exact fun y hy => hab y (by simp [hy])
    rw [pyquote_cons, pyquote_append, pyquote_quoteByte_fix b hblt, ih habr]

/-- Claim C7 as amended: `requote_uri` is idempotent on byte strings in
which every percent sign is followed by two hexadecimal digits.  (The
claim as stated, over arbitrary strings, fails: see the counterexample
with the malformed escape `%4`.) -/
theorem claim_C7_amended (u : List Nat) (hab : allBytes u = true)
    (hwf : wellFormedEscapes u = true) :
    requote_uri (requote_uri u) = requote_uri u := by
  obtain ⟨w, hw, hinv, hwb⟩ := uu_wf u hwf hab
  have h1 : requote_uri u = pyquote safeWithPercent w := by
    unfold requote_uri
    rw [hw]
  rw [h1]
  unfold requote_uri
  rw [uu_fix _ (outInv_quote w hwb hinv)]
  exact pyquote_fix w hwb

/-- Claim C7 counterexample: on `%4%31` — a malformed escape followed by
a valid escape of the unreserved digit `1` — the first requote produces
`%41`, which the second requote unquotes to `A`, so requoting twice
differs from requoting once. -/
theorem claim_C7_counterexample :
    requote_uri (requote_uri (strBytes "%4%31")) ≠ requote_uri (strBytes "%4%31") := by
  decide

/-- Witness for the amended C7 at a concrete URL with spaces, a kept
escape `%7E` and a decoded escape `%41`. -/
theorem claim_C7_witness :
    allBytes (strBytes "http://a b/%7Ex?q=1%41") = true ∧
    wellFormedEscapes (strBytes "http://a b/%7Ex?q=1%41") = true ∧
    requote_uri (requote_uri (strBytes "http://a b/%7Ex?q=1%41")) =
      requote_uri (strBytes "http://a b/%7Ex?q=1%41") :=
  ⟨by decide, by decide,
    claim_C7_amended (strBytes "http://a b/%7Ex?q=1%41") (by decide) (by decide)⟩
